import Mathlib

/-!
Verification of the XPU experience-retrieval core of Repo2Run-XPU.

The development shallowly embeds the Python modules
`build_agent/xpu/xpu_adapter.py`, `build_agent/xpu/xpu_vector_store.py`,
`build_agent/utils/experience.py` and `build_agent/utils/xpu_handler.py`.
Pure functions become Lean functions; the PostgreSQL-backed store becomes a
list of rows with the SQL statements translated to list operations; the
external regex engine, embedding service and pgvector distance operator are
modelled as explicit oracle parameters, since their implementations live
outside the repository.
-/

/-- Python scalar values that occur in atom argument dictionaries.
`pnone` stands for Python `None`; `dict.get` on a missing key also yields
`None`, which the model reflects by defaulting lookups to `pnone`. -/
inductive PyVal where
  | pnone : PyVal
  | pstr : String → PyVal
  | pint : Int → PyVal
  | pbool : Bool → PyVal
deriving Repr, DecidableEq

/-- Single-quote character, built from its code point so the quote does not
appear literally in the file. -/
def squote : String := String.mk [Char.ofNat 39]

/-- Python `str()` conversion for the modelled values (used by f-strings). -/
def pyStr : PyVal → String
  | PyVal.pnone => "None"
  | PyVal.pstr s => s
  | PyVal.pint n => toString n
  | PyVal.pbool b => if b then "True" else "False"

/-- Python `repr()` conversion; strings are modelled without escape
sequences, which is exact for quote-free, printable content. -/
def pyRepr : PyVal → String
  | PyVal.pnone => "None"
  | PyVal.pstr s => squote ++ s ++ squote
  | PyVal.pint n => toString n
  | PyVal.pbool b => if b then "True" else "False"

/-- Python truthiness (`not x`) for the modelled values. -/
def pyFalsy : PyVal → Bool
  | PyVal.pnone => true
  | PyVal.pstr s => decide (s = "")
  | PyVal.pint n => decide (n = 0)
  | PyVal.pbool b => !b

/-- Telemetry counters of an entry (`hits`, `successes`, `failures`). -/
structure TelemetryCounters where
  hits : Nat
  successes : Nat
  failures : Nat
deriving Repr, DecidableEq

/-- Typed view of the `context` JSON object of an entry: language tag,
OS list, declared python-version list, tool list.  Absent JSON keys are
`none` / `[]`, matching `ectx.get(...) or []` in the source. -/
structure EntryContext where
  lang : Option String
  os : List String
  python : List String
  tools : List String
deriving Repr, DecidableEq

/-- Typed view of the `signals` JSON object: regex list and keyword list. -/
structure EntrySignals where
  regex : List String
  keywords : List String
deriving Repr, DecidableEq

/-- `XpuAtom` from `xpu_adapter.py`: a remediation primitive with a kind tag
and an argument dictionary (modelled as an association list). -/
structure XpuAtom where
  name : String
  args : List (String × PyVal)
deriving Repr, DecidableEq

/-- `XpuEntry` from `xpu_adapter.py`. -/
structure XpuEntry where
  id : String
  context : EntryContext
  signals : EntrySignals
  advice_nl : List String
  atoms : List XpuAtom
  telemetry : TelemetryCounters := ⟨0, 0, 0⟩
deriving Repr, DecidableEq

/-- `XpuContext` from `xpu_adapter.py`: the ephemeral retrieval context. -/
structure XpuContext where
  lang : Option String := none
  os : Option String := none
  python : Option String := none
  tools : List String := []
deriving Repr, DecidableEq

/-- Python `args.get(key)`: `None` when the key is absent. -/
def getArg (args : List (String × PyVal)) (key : String) : PyVal :=
  (args.lookup key).getD PyVal.pnone

/-- Python `args.get(key, default)`. -/
def getArgD (args : List (String × PyVal)) (key : String) (d : PyVal) : PyVal :=
  (args.lookup key).getD d

/-- `render_atom_to_commands` from `xpu_adapter.py`: render a single atom
into a list of bash commands, returning `[]` on unknown kinds or missing
required arguments. -/
def render_atom_to_commands (atom : XpuAtom) : List String :=
  let name := atom.name
  let args := atom.args
  if name = "pip_pin" then
    let pkg := getArg args "name"
    let spec := getArgD args "spec" (PyVal.pstr "")
    if pkg = PyVal.pnone then []
    else ["pip install " ++ squote ++ pyStr pkg ++ pyStr spec ++ squote]
  else if name = "pip_install" then
    let pkg := getArg args "name"
    let spec := getArgD args "spec" (PyVal.pstr "")
    if pkg = PyVal.pnone then []
    else ["pip install " ++ squote ++ pyStr pkg ++ pyStr spec ++ squote]
  else if name = "set_pytest_flag" then
    let flagName := getArg args "name"
    let value := getArg args "value"
    if pyFalsy flagName || value = PyVal.pnone then []
    else ["pytest " ++ pyStr flagName ++ "=" ++ pyStr value]
  else if name = "set_env" then
    let key := getArg args "key"
    let value := getArg args "value"
    if pyFalsy key || value = PyVal.pnone then []
    else ["export " ++ pyStr key ++ "=" ++ pyStr value]
  else if name = "set_umask" then
    let value := getArg args "value"
    if value = PyVal.pnone then []
    else ["umask " ++ pyStr value]
  else if name = "set_django_setting" then
    let key := getArg args "key"
    let value := getArg args "value"
    if pyFalsy key then []
    else
      ["python - <<" ++ squote ++ "PY" ++ squote,
       "from django.conf import settings",
       "settings." ++ pyStr key ++ " = " ++ pyRepr value,
       "PY"]
  else if name = "or_upgrade_pkg" then
    let pkg := getArg args "name"
    let minVersion := getArg args "min_version"
    if pyFalsy pkg || pyFalsy minVersion then []
    else ["pip install " ++ squote ++ pyStr pkg ++ ">=" ++ pyStr minVersion ++ squote]
  else []

/-- `render_entry_commands`: concatenation of per-atom renders in order. -/
def render_entry_commands (e : XpuEntry) : List String :=
  e.atoms.flatMap render_atom_to_commands

/-- The atom kind tags recognized by `render_atom_to_commands`. -/
def recognizedAtomKinds : List String :=
  ["pip_pin", "pip_install", "set_pytest_flag", "set_env", "set_umask",
   "set_django_setting", "or_upgrade_pkg"]

/-- Required argument keys per recognized atom kind, as checked by the
source before emitting any command. -/
def requiredArgKeys (kind : String) : List String :=
  if kind = "pip_pin" then ["name"]
  else if kind = "pip_install" then ["name"]
  else if kind = "set_pytest_flag" then ["name", "value"]
  else if kind = "set_env" then ["key", "value"]
  else if kind = "set_umask" then ["value"]
  else if kind = "set_django_setting" then ["key"]
  else if kind = "or_upgrade_pkg" then ["name", "min_version"]
  else []

/-- Truncation marker inserted by `XpuHandler.retrieve_hints`. -/
def truncMarker : String := "\n... [TRUNCATED] ...\n"

/-- The truncation step of `XpuHandler.retrieve_hints` (lines 109-112):
if the snippet exceeds 4000 characters, keep the first 2000 and the last
2000 characters around a single marker. -/
def truncateSnippet (s : String) : String :=
  if s.data.length > 4000 then
    String.mk (s.data.take 2000 ++ truncMarker.data ++ s.data.drop (s.data.length - 2000))
  else s

/-- Python substring test `needle in hay` on strings (contiguous substring;
the empty needle is a substring of everything, as in Python). -/
def pyIn (needle hay : String) : Bool :=
  hay.data.tails.any (fun t => needle.data.isPrefixOf t)

/-- Python `str.strip()`: drop leading and trailing whitespace, modelled on
the character list (so that it evaluates by kernel reduction). -/
def pyStrip (s : String) : String :=
  String.mk ((s.data.dropWhile Char.isWhitespace).reverse.dropWhile Char.isWhitespace).reverse

/-- Python `str.lower()`, modelled on the character list. -/
def pyLower (s : String) : String :=
  String.mk (s.data.map Char.toLower)

/-- Result type of the external regex oracle: `re.search(pattern, text)`
returns a match or not, and may also reject the pattern (`re.error`),
modelled by `none`.  The regex engine is external to the repository. -/
def ReOracle : Type := String → String → Option Bool

/-- `_match_regex` from `xpu_adapter.py`: true when any pattern matches,
invalid patterns skipped. -/
def matchRegexAny (ro : ReOracle) (patterns : List String) (s : String) : Bool :=
  patterns.any (fun p => (ro p s).getD false)

/-- `_keyword_score` from `xpu_adapter.py`: number of non-empty keywords
that occur (case-insensitively) as substrings of the snippet. -/
def keywordScoreCount (s : String) (keywords : List String) : Nat :=
  keywords.countP (fun kw => !(kw == "") && pyIn (pyLower kw) (pyLower s))

/-- Python `s.startswith(pre)`, modelled on the character lists (so that it
evaluates by kernel reduction). -/
def pyStartsWith (s pre : String) : Bool :=
  pre.data.isPrefixOf s.data

/-- `_context_match_score` from `xpu_adapter.py`.  Each Python
`if ctx.field:` truthiness test becomes a `some`-and-non-empty check. -/
def contextMatchScore (e : XpuEntry) (ctx : XpuContext) : Nat :=
  let s1 : Nat := match ctx.lang with
    | some l => if l ≠ "" ∧ e.context.lang = some l then 2 else 0
    | none => 0
  let s2 : Nat :=
    if (!e.context.tools.isEmpty) && (!ctx.tools.isEmpty) &&
       e.context.tools.any (fun t => ctx.tools.contains t) then 2 else 0
  let s3 : Nat := match ctx.python with
    | some p => if p ≠ "" ∧ e.context.python.any (fun py => pyStartsWith py p) then 1 else 0
    | none => 0
  let s4 : Nat := match ctx.os with
    | some o => if o ≠ "" ∧ e.context.os.contains o then 1 else 0
    | none => 0
  s1 + s2 + s3 + s4

/-- `score_xpu` from `xpu_adapter.py`: composite relevance score. -/
def score_xpu (ro : ReOracle) (e : XpuEntry) (s : String) (ctx : XpuContext) : ℚ :=
  let sc : ℚ := 0
  let sc := if (!e.signals.regex.isEmpty) && matchRegexAny ro e.signals.regex s then sc + 10 else sc
  let sc := sc + (keywordScoreCount s e.signals.keywords : ℚ)
  let sc := sc + (3 / 2) * (contextMatchScore e ctx : ℚ)
  let sc := if !e.atoms.isEmpty then sc + 1 / 2 else sc
  sc

/-- Stable insertion: `x` is placed before the first element `y` with
`le x y`; used to model Python's stable `list.sort`. -/
def stableInsert (le : α → α → Bool) (x : α) : List α → List α
  | [] => [x]
  | y :: ys => if le x y then x :: y :: ys else y :: stableInsert le x ys

/-- Stable sort by insertion; extensionally equal to Python's stable sort
for any total preorder `le` (where `le x y` means `x` may stay before `y`). -/
def stableSort (le : α → α → Bool) : List α → List α
  | [] => []
  | x :: xs => stableInsert le x (stableSort le xs)

/-- Python `scored.sort(key=lambda x: x[0], reverse=True)`: stable
descending sort of (score, entry) pairs. -/
def sortByScoreDesc (l : List (ℚ × XpuEntry)) : List (ℚ × XpuEntry) :=
  stableSort (fun a b => decide (b.1 ≤ a.1)) l

/-- `retrieve_xpu_candidates` from `xpu_adapter.py`: top-k selection with
the optional prefer-atoms mode. -/
def retrieve_xpu_candidates (ro : ReOracle) (entries : List XpuEntry) (s : String)
    (ctx : XpuContext) (k : Nat) (preferAtoms : Bool) : List XpuEntry :=
  if entries.isEmpty then []
  else
    let scored := entries.map (fun e => (score_xpu ro e s ctx, e))
    if scored.isEmpty then []
    else if preferAtoms then
      let withAtoms := scored.filter (fun p => !p.2.atoms.isEmpty)
      let withoutAtoms := scored.filter (fun p => p.2.atoms.isEmpty)
      let wa := sortByScoreDesc withAtoms
      let wo := sortByScoreDesc withoutAtoms
      let result := (wa.take k).map Prod.snd
      if result.length < k then result ++ (wo.take (k - result.length)).map Prod.snd
      else result
    else ((sortByScoreDesc scored).take k).map Prod.snd

/-- Knowledge-base entry as read by `ExperienceRetriever` (one JSON object
per line; only `id`, `signals`, `advice_nl` are consulted). -/
structure ExpEntry where
  id : String
  signals : EntrySignals
  advice_nl : List String
deriving Repr, DecidableEq

/-- Fixed marker wrapped around each advice line by the retriever. -/
def expHintMarker : String := "[Knowledge Base Hint]: "

/-- Match decision for one entry in `ExperienceRetriever.retrieve`:
reactive path (regex case-insensitive, then keyword substring) gated on a
non-empty observation, then the predictive file-name path. -/
def expEntryMatches (ro : ReOracle) (obs : String) (files : List String) (e : ExpEntry) : Bool :=
  let reactive :=
    if obs ≠ "" then
      (e.signals.regex.any fun p => (ro p obs).getD false) ||
      ((!e.signals.keywords.isEmpty) && (e.signals.keywords.any fun kw => pyIn kw obs))
    else false
  reactive ||
    ((!files.isEmpty) && (!e.signals.keywords.isEmpty) &&
     (files.any fun fn => e.signals.keywords.contains fn))

/-- Loop of `ExperienceRetriever.retrieve`, carrying the `hit_ids` set. -/
def retrieveFrom (ro : ReOracle) (obs : String) (files : List String) :
    List ExpEntry → List String → List String
  | [], _ => []
  | e :: rest, hitIds =>
    if expEntryMatches ro obs files e && !hitIds.contains e.id then
      e.advice_nl.map (fun a => expHintMarker ++ a) ++
        retrieveFrom ro obs files rest (e.id :: hitIds)
    else retrieveFrom ro obs files rest hitIds

/-- `ExperienceRetriever.retrieve` from `experience.py`. -/
def ExperienceRetriever.retrieve (ro : ReOracle) (kb : List ExpEntry) (obs : String)
    (files : List String) : List String :=
  retrieveFrom ro obs files kb []

/-- One row of the `xpu_entries` table in `xpu_vector_store.py`. -/
structure StoreRow where
  id : String
  context : EntryContext
  signals : EntrySignals
  advice_nl : List String
  atoms : List XpuAtom
  embedding : List ℚ
  telemetry : TelemetryCounters
deriving Repr, DecidableEq

/-- One row returned by `XpuVectorStore.search`. -/
structure SearchResult where
  id : String
  context : EntryContext
  signals : EntrySignals
  advice_nl : List String
  atoms : List XpuAtom
  similarity : ℚ
deriving Repr, DecidableEq

/-- The three telemetry fields accepted by `increment_telemetry`. -/
inductive TelField where
  | hits : TelField
  | successes : TelField
  | failures : TelField
deriving Repr, DecidableEq

/-- Add one to the named counter (the `jsonb_set`/`COALESCE` SQL update). -/
def bumpTelemetry : TelField → TelemetryCounters → TelemetryCounters
  | TelField.hits, t => TelemetryCounters.mk (t.hits + 1) t.successes t.failures
  | TelField.successes, t => TelemetryCounters.mk t.hits (t.successes + 1) t.failures
  | TelField.failures, t => TelemetryCounters.mk t.hits t.successes (t.failures + 1)

/-- `XpuVectorStore.increment_telemetry`: one atomic batched `+1` on the
named counter for every row whose id is in `ids` (`WHERE id = ANY(ids)`);
unknown ids are silently ignored, and the early return skips empty lists. -/
def increment_telemetry (rows : List StoreRow) (ids : List String) (f : TelField) :
    List StoreRow :=
  if ids.isEmpty then rows
  else rows.map (fun r =>
    if ids.contains r.id then
      StoreRow.mk r.id r.context r.signals r.advice_nl r.atoms r.embedding
        (bumpTelemetry f r.telemetry)
    else r)

/-- Similarity used by the search SQL: `1 - (embedding <=> query)` where
`<=>` is the external pgvector cosine-distance operator, modelled by the
oracle `dist`. -/
def rowSimilarity (dist : List ℚ → List ℚ → ℚ) (q : List ℚ) (r : StoreRow) : ℚ :=
  1 - dist r.embedding q

/-- Language WHERE-clause of the search SQL: added only when `ctx.lang` is
truthy, and then requires `context->>'lang' = ctx.lang`. -/
def langFilterOk (ctx : Option XpuContext) (r : StoreRow) : Bool :=
  match ctx with
  | none => true
  | some c =>
    match c.lang with
    | none => true
    | some l => decide (l = "") || (r.context.lang == some l)

/-- Python-version WHERE-clause of the search SQL.  The source iterates
`for py_ver in ctx.python` where `ctx.python` is a string, so each CHARACTER
of the context version becomes one `LIKE '{char}%'` condition against the
row's declared version list (`LIKE` is modelled for wildcard-free
characters, which covers digits and dots). -/
def pyFilterOk (ctx : Option XpuContext) (r : StoreRow) : Bool :=
  match ctx with
  | none => true
  | some c =>
    match c.python with
    | none => true
    | some p =>
      decide (p = "") ||
      p.data.any (fun ch => r.context.python.any (fun v => pyStartsWith v (String.mk [ch])))

/-- Tools WHERE-clause of the search SQL: added only when `ctx.tools` is
non-empty, and then requires some context tool to equal some row tool. -/
def toolsFilterOk (ctx : Option XpuContext) (r : StoreRow) : Bool :=
  match ctx with
  | none => true
  | some c => c.tools.isEmpty || c.tools.any (fun t => r.context.tools.contains t)

/-- `XpuVectorStore.search`: dimension check, structural WHERE filters plus
the similarity threshold, `ORDER BY` distance (modelled as a stable sort, a
legal ordering for the SQL), `LIMIT k`, and projection to result rows. -/
def XpuVectorStore.search (dim : Nat) (dist : List ℚ → List ℚ → ℚ) (rows : List StoreRow)
    (q : List ℚ) (ctx : Option XpuContext) (k : Nat) (minSim : ℚ) :
    Except String (List SearchResult) :=
  if q.length ≠ dim then Except.error "Query embedding dimension mismatch"
  else
    let passing := rows.filter (fun r =>
      decide (minSim ≤ rowSimilarity dist q r) && langFilterOk ctx r &&
      pyFilterOk ctx r && toolsFilterOk ctx r)
    let ordered := stableSort (fun a b => decide (dist a.embedding q ≤ dist b.embedding q)) passing
    Except.ok ((ordered.take k).map (fun r =>
      SearchResult.mk r.id r.context r.signals r.advice_nl r.atoms (rowSimilarity dist q r)))

/-- `XpuVectorStore.upsert_entry`: dimension check then atomic
insert-or-replace keyed by id (`ON CONFLICT (id) DO UPDATE` on the content
and embedding columns; telemetry is not in the column list, so a replaced
row keeps its counters). -/
def XpuVectorStore.upsert_entry (dim : Nat) (rows : List StoreRow) (e : XpuEntry)
    (emb : List ℚ) : Except String (List StoreRow) :=
  if emb.length ≠ dim then Except.error "Embedding dimension mismatch"
  else if rows.any (fun r => r.id == e.id) then
    Except.ok (rows.map (fun r =>
      if r.id == e.id then
        StoreRow.mk e.id e.context e.signals e.advice_nl e.atoms emb r.telemetry
      else r))
  else
    Except.ok (rows ++ [StoreRow.mk e.id e.context e.signals e.advice_nl e.atoms emb
      (TelemetryCounters.mk 0 0 0)])

/-- `render_candidates_block` from `xpu_adapter.py`. -/
def render_candidates_block (entries : List XpuEntry) : String :=
  if entries.isEmpty then ""
  else
    let lines :=
      "Candidate Fixes from XPU (choose only what you need):" ::
      entries.flatMap (fun e =>
        ("- Fix (id=" ++ e.id ++ "):") ::
        ((if !e.advice_nl.isEmpty then
            "  Advice:" :: e.advice_nl.map (fun adv => "    - " ++ adv)
          else []) ++
         (let cmds := render_entry_commands e
          if !cmds.isEmpty then "  Bash snippet:" :: cmds.map (fun c => "    " ++ c)
          else [])))
    String.intercalate "\n" lines

/-- `XPU_ERROR_KEYWORDS` from `xpu_handler.py`. -/
def XPU_ERROR_KEYWORDS : List String :=
  ["module not found", "modulenotfounderror", "importerror", "no module named",
   "could not find a version", "command not found", "permission denied",
   "error:", "failed", "traceback", "exception"]

/-- `XpuHandler._check_has_error`: any error keyword occurs in the lowered
text (empty text never counts). -/
def check_has_error (text : String) : Bool :=
  if text = "" then false
  else XPU_ERROR_KEYWORDS.any (fun kw => pyIn kw (pyLower text))

/-- Mutable per-session state of `XpuHandler`: the optional store (rows of
the table), the last-query memo and the session-used id set (modelled as an
insertion-ordered duplicate-free list). -/
structure HandlerState where
  vector_store : Option (List StoreRow)
  last_query : Option String
  session_used_ids : List String
deriving Repr, DecidableEq

/-- External dependencies of the handler: the configured embedding
dimension, the pgvector distance operator, and the embedding service (which
may fail, modelled by `Except`). -/
structure XpuEnv where
  dim : Nat
  dist : List ℚ → List ℚ → ℚ
  embed : String → Except String (List ℚ)

/-- `XpuHandler._should_query_xpu`: skip when no store is configured, the
snippet is empty, no error was detected, or the snippet equals the last
query. -/
def XpuHandler.should_query_xpu (s : HandlerState) (snippet : String) (hasError : Bool) :
    Bool :=
  if s.vector_store.isNone then false
  else if snippet = "" then false
  else if !hasError then false
  else if s.last_query == some snippet then false
  else true

/-- Python `set.update`: add the ids not already present, in order. -/
def setUpdate (xs ids : List String) : List String :=
  ids.foldl (fun acc i => if acc.contains i then acc else acc ++ [i]) xs

/-- Result of one `retrieve_hints` call: the rendered block, the selected
id list, the post-call handler state, and the number of store lookups
performed (instrumentation for the frame claims). -/
structure RetrieveOutcome where
  block : String
  ids : List String
  state : HandlerState
  searchCalls : Nat
deriving Repr

/-- `XpuHandler.retrieve_hints`: strip and truncate the observation,
classify has-error, decide whether to query, then embed, search with
`k = 3` and `min_similarity = 0.3` under a python-language context, and on
a non-empty result update the memo, bump `hits`, extend the session-used
set and render the block.  Any embedding/search failure degrades to
`("", [])` with the state untouched. -/
def XpuHandler.retrieve_hints (env : XpuEnv) (s : HandlerState) (sandbox_res : String) :
    RetrieveOutcome :=
  let snippet := truncateSnippet (pyStrip sandbox_res)
  let hasError := check_has_error snippet
  if !XpuHandler.should_query_xpu s snippet hasError then RetrieveOutcome.mk "" [] s 0
  else
    match s.vector_store with
    | none => RetrieveOutcome.mk "" [] s 0
    | some rows =>
      match env.embed snippet with
      | Except.error _ => RetrieveOutcome.mk "" [] s 0
      | Except.ok q =>
        match XpuVectorStore.search env.dim env.dist rows q
            (some (XpuContext.mk (some "python") none none [])) 3 (3 / 10) with
        | Except.error _ => RetrieveOutcome.mk "" [] s 1
        | Except.ok results =>
          if results.isEmpty then RetrieveOutcome.mk "" [] s 1
          else
            let candidates := results.map (fun r =>
              XpuEntry.mk r.id r.context r.signals r.advice_nl r.atoms
                (TelemetryCounters.mk 0 0 0))
            let candidateIds := candidates.map XpuEntry.id
            let rows2 := increment_telemetry rows candidateIds TelField.hits
            RetrieveOutcome.mk (render_candidates_block candidates) candidateIds
              (HandlerState.mk (some rows2) (some snippet)
                (setUpdate s.session_used_ids candidateIds)) 1

/-- `XpuHandler.update_realtime_feedback`: compare the previous turn's ids
with the current turn's; persisted ids get `failures += 1`, resolved ids
get `successes += 1`.  No store or an empty previous list is a no-op. -/
def XpuHandler.update_realtime_feedback (s : HandlerState) (lastIds currentIds : List String) :
    HandlerState :=
  match s.vector_store with
  | none => s
  | some rows =>
    if lastIds.isEmpty then s
    else
      let failedIds := lastIds.filter (fun i => currentIds.contains i)
      let rows1 := if failedIds.isEmpty then rows
        else increment_telemetry rows failedIds TelField.failures
      let succeededIds := lastIds.filter (fun i => !currentIds.contains i)
      let rows2 := if succeededIds.isEmpty then rows1
        else increment_telemetry rows1 succeededIds TelField.successes
      HandlerState.mk (some rows2) s.last_query s.session_used_ids

/-- Context score exactly as claim C2 words it (spec-side definition for
the refinement comparison): 2 for an equal declared language, 2 for a
non-empty tool-set intersection, 1 when some declared version of the entry
is a prefix of the context version, 1 when the context OS is in the entry
OS list. -/
def claimContextScore (e : XpuEntry) (c : XpuContext) : ℚ :=
  (if c.lang ≠ none ∧ e.context.lang = c.lang then 2 else 0) +
  (if e.context.tools.any (fun t => c.tools.contains t) then 2 else 0) +
  (match c.python with
   | some p => if e.context.python.any (fun v => pyStartsWith p v) then 1 else 0
   | none => 0) +
  (match c.os with
   | some o => if e.context.os.contains o then 1 else 0
   | none => 0)

/-- Composite relevance score exactly as claim C2 words it (spec-side). -/
def claimScore (ro : ReOracle) (e : XpuEntry) (s : String) (c : XpuContext) : ℚ :=
  (if matchRegexAny ro e.signals.regex s then 10 else 0) +
  (e.signals.keywords.countP (fun kw => pyIn (pyLower kw) (pyLower s)) : ℚ) +
  (3 / 2) * claimContextScore e c +
  (if !e.atoms.isEmpty then 1 / 2 else 0)

/-- Context score of the amended claim C2: identical to the claim except
that the version clause runs in the direction the source implements — the
CONTEXT version must be a prefix of some declared entry version. -/
def amendedContextScore (e : XpuEntry) (c : XpuContext) : ℚ :=
  (if c.lang ≠ none ∧ e.context.lang = c.lang then 2 else 0) +
  (if e.context.tools.any (fun t => c.tools.contains t) then 2 else 0) +
  (match c.python with
   | some p => if e.context.python.any (fun v => pyStartsWith v p) then 1 else 0
   | none => 0) +
  (match c.os with
   | some o => if e.context.os.contains o then 1 else 0
   | none => 0)

/-- Composite relevance score of the amended claim C2. -/
def amendedScore (ro : ReOracle) (e : XpuEntry) (s : String) (c : XpuContext) : ℚ :=
  (if matchRegexAny ro e.signals.regex s then 10 else 0) +
  (e.signals.keywords.countP (fun kw => pyIn (pyLower kw) (pyLower s)) : ℚ) +
  (3 / 2) * amendedContextScore e c +
  (if !e.atoms.isEmpty then 1 / 2 else 0)

/-- Match predicate exactly as claim C3 words it: a regex hit on the
observation, a keyword substring hit, or a non-empty intersection of the
current file names with the keywords. -/
def claimExpMatches (ro : ReOracle) (obs : String) (files : List String) (e : ExpEntry) :
    Bool :=
  (e.signals.regex.any fun p => (ro p obs).getD false) ||
  (e.signals.keywords.any fun kw => pyIn kw obs) ||
  (files.any fun fn => e.signals.keywords.contains fn)

/-- C7: rendering an atom whose kind tag is unrecognized, or whose required
arguments are missing from the argument dictionary, yields the empty
command list (the source returns `[]` on every such branch and can raise on
none of them). -/
theorem render_atom_unknown_or_missing (atom : XpuAtom)
    (h : atom.name ∉ recognizedAtomKinds ∨
      ∃ k ∈ requiredArgKeys atom.name, atom.args.lookup k = none) :
    render_atom_to_commands atom = [] := by
  obtain ⟨nm, args⟩ := atom
  dsimp only at h
  by_cases h1 : nm = "pip_pin"
  · subst h1
    obtain ⟨k, hk, hlk⟩ := h.resolve_left (not_not_intro (by decide))
    simp only [requiredArgKeys] at hk
    simp at hk
    subst hk
    simp [render_atom_to_commands, getArg, hlk]
  · by_cases h2 : nm = "pip_install"
    · subst h2
      obtain ⟨k, hk, hlk⟩ := h.resolve_left (not_not_intro (by decide))
      simp only [requiredArgKeys] at hk
      simp at hk
      subst hk
      simp [render_atom_to_commands, getArg, hlk]
    · by_cases h3 : nm = "set_pytest_flag"
      · subst h3
        obtain ⟨k, hk, hlk⟩ := h.resolve_left (not_not_intro (by decide))
        simp only [requiredArgKeys] at hk
        simp at hk
        rcases hk with rfl | rfl <;>
          simp [render_atom_to_commands, getArg, hlk, pyFalsy]
      · by_cases h4 : nm = "set_env"
        · subst h4
          obtain ⟨k, hk, hlk⟩ := h.resolve_left (not_not_intro (by decide))
          simp only [requiredArgKeys] at hk
          simp at hk
          rcases hk with rfl | rfl <;>
            simp [render_atom_to_commands, getArg, hlk, pyFalsy]
        · by_cases h5 : nm = "set_umask"
          · subst h5
            obtain ⟨k, hk, hlk⟩ := h.resolve_left (not_not_intro (by decide))
            simp only [requiredArgKeys] at hk
            simp at hk
            subst hk
            simp [render_atom_to_commands, getArg, hlk]
          · by_cases h6 : nm = "set_django_setting"
            · subst h6
              obtain ⟨k, hk, hlk⟩ := h.resolve_left (not_not_intro (by decide))
              simp only [requiredArgKeys] at hk
              simp at hk
              subst hk
              simp [render_atom_to_commands, getArg, hlk, pyFalsy]
            · by_cases h7 : nm = "or_upgrade_pkg"
              · subst h7
                obtain ⟨k, hk, hlk⟩ := h.resolve_left (not_not_intro (by decide))
                simp only [requiredArgKeys] at hk
                simp at hk
                rcases hk with rfl | rfl <;>
                  simp [render_atom_to_commands, getArg, hlk, pyFalsy]
              · simp [render_atom_to_commands, h1, h2, h3, h4, h5, h6, h7]

/-- Witness for C7 at a concrete unrecognized atom kind. -/
theorem render_atom_unknown_or_missing_witness :
    render_atom_to_commands (XpuAtom.mk "frobnicate" []) = [] :=
  render_atom_unknown_or_missing (XpuAtom.mk "frobnicate" []) (Or.inl (by decide))

/-- C8: the coordinator's truncation step leaves an in-bound observation
unchanged, and on an over-long observation produces exactly the first 2000
characters, one truncation marker, and the last 2000 characters; in
particular the head and the tail of the result reproduce the input's first
and last 2000 characters verbatim. -/
theorem truncateSnippet_spec (s : String) :
    (s.data.length ≤ 4000 → truncateSnippet s = s) ∧
    (s.data.length > 4000 →
      (truncateSnippet s).data =
        s.data.take 2000 ++ truncMarker.data ++ s.data.drop (s.data.length - 2000) ∧
      (truncateSnippet s).data.take 2000 = s.data.take 2000 ∧
      (truncateSnippet s).data.drop ((truncateSnippet s).data.length - 2000) =
        s.data.drop (s.data.length - 2000)) := by
  constructor
  · intro h
    simp only [truncateSnippet]
    rw [if_neg (show ¬s.data.length > 4000 by omega)]
  · intro h
    have hda : (truncateSnippet s).data =
        s.data.take 2000 ++ truncMarker.data ++ s.data.drop (s.data.length - 2000) := by
      simp only [truncateSnippet, if_pos h]
    have hA : (s.data.take 2000).length = 2000 := by
      rw [List.length_take]; omega
    have hM : truncMarker.data.length = 21 := by decide
    have hD : (s.data.drop (s.data.length - 2000)).length = 2000 := by
      rw [List.length_drop]; omega
    refine ⟨hda, ?_, ?_⟩
    · rw [hda, List.append_assoc]
      exact List.take_left' hA
    · have hlen : (truncateSnippet s).data.length = 4021 := by
        rw [hda]
        simp only [List.length_append, hA, hM, hD]
      have hAM : (s.data.take 2000 ++ truncMarker.data).length = 4021 - 2000 := by
        rw [List.length_append, hA, hM]
      rw [hlen, hda]
      exact List.drop_left' hAM

/-- Witness for C8: a short input passes through unchanged. -/
theorem truncateSnippet_spec_witness : truncateSnippet "error: boom" = "error: boom" :=
  (truncateSnippet_spec "error: boom").1 (by decide)

/-- C9: both `upsert_entry` and `search` reject an embedding whose length
differs from the configured dimension with a dimension-mismatch error, and
the failed upsert inserts nothing (the error carries no store). -/
theorem store_dimension_mismatch (dim : Nat) (dist : List ℚ → List ℚ → ℚ)
    (rows : List StoreRow) (e : XpuEntry) (emb q : List ℚ) (ctx : Option XpuContext)
    (k : Nat) (minSim : ℚ) (h1 : emb.length ≠ dim) (h2 : q.length ≠ dim) :
    XpuVectorStore.upsert_entry dim rows e emb =
      Except.error "Embedding dimension mismatch" ∧
    XpuVectorStore.search dim dist rows q ctx k minSim =
      Except.error "Query embedding dimension mismatch" := by
  constructor
  · simp [XpuVectorStore.upsert_entry, h1]
  · simp [XpuVectorStore.search, h2]

/-- Witness for C9 at the default dimension 1536 and an empty embedding. -/
theorem store_dimension_mismatch_witness :
    XpuVectorStore.upsert_entry 1536 []
      (XpuEntry.mk "e1" (EntryContext.mk none [] [] []) (EntrySignals.mk [] []) [] []
        (TelemetryCounters.mk 0 0 0)) [] =
      Except.error "Embedding dimension mismatch" ∧
    XpuVectorStore.search 1536 (fun _ _ => 0) [] [] none 3 0 =
      Except.error "Query embedding dimension mismatch" :=
  store_dimension_mismatch 1536 (fun _ _ => 0) []
    (XpuEntry.mk "e1" (EntryContext.mk none [] [] []) (EntrySignals.mk [] []) [] []
      (TelemetryCounters.mk 0 0 0)) [] [] none 3 0 (by decide) (by decide)

/-- Telemetry increment as a single pointwise map, with the empty-ids early
return absorbed (over an empty id list no row id matches). -/
theorem increment_telemetry_eq_map (rows : List StoreRow) (ids : List String) (f : TelField) :
    increment_telemetry rows ids f = rows.map (fun r =>
      if ids.contains r.id then
        StoreRow.mk r.id r.context r.signals r.advice_nl r.atoms r.embedding
          (bumpTelemetry f r.telemetry)
      else r) := by
  unfold increment_telemetry
  by_cases hid : ids.isEmpty
  · have hnil : ids = [] := by simpa using hid
    subst hnil
    simp
  · simp [hid]

/-- The guarded increments in `update_realtime_feedback` collapse to plain
`increment_telemetry` calls. -/
theorem guarded_increment_collapse (rows : List StoreRow) (ids : List String) (f : TelField) :
    (if ids.isEmpty then rows else increment_telemetry rows ids f) =
      increment_telemetry rows ids f := by
  by_cases hh : ids.isEmpty
  · simp [increment_telemetry, hh]
  · simp [hh]

/-- C1: with a store configured, the cross-turn feedback update adds exactly
one `failures` increment for each row whose id is in
`previousTurnIds ∩ currentTurnIds`, exactly one `successes` increment for
each row whose id is in `previousTurnIds − currentTurnIds`, and leaves hits
and everything else unchanged; with an empty `previousTurnIds` it changes
nothing. -/
theorem update_realtime_feedback_spec (s : HandlerState) (rows : List StoreRow)
    (lastIds currentIds : List String) (hs : s.vector_store = some rows) :
    (lastIds = [] → XpuHandler.update_realtime_feedback s lastIds currentIds = s) ∧
    (lastIds ≠ [] → XpuHandler.update_realtime_feedback s lastIds currentIds =
      HandlerState.mk
        (some (rows.map (fun r =>
          StoreRow.mk r.id r.context r.signals r.advice_nl r.atoms r.embedding
            (TelemetryCounters.mk r.telemetry.hits
              (r.telemetry.successes + (if r.id ∈ lastIds ∧ r.id ∉ currentIds then 1 else 0))
              (r.telemetry.failures + (if r.id ∈ lastIds ∧ r.id ∈ currentIds then 1 else 0))))))
        s.last_query s.session_used_ids) := by
  constructor
  · intro h
    subst h
    simp [XpuHandler.update_realtime_feedback, hs]
  · intro h
    have hne : ¬lastIds.isEmpty = true := by
      simpa using h
    simp only [XpuHandler.update_realtime_feedback, hs, if_neg hne]
    simp only [guarded_increment_collapse]
    simp only [increment_telemetry_eq_map, List.map_map]
    congr 1
    apply congrArg
    apply List.map_congr_left
    intro r _
    by_cases hl : r.id ∈ lastIds <;> by_cases hc : r.id ∈ currentIds <;>
      simp [List.elem_eq_mem, List.mem_filter, hl, hc, bumpTelemetry, Function.comp]

/-- Witness for C1 at a concrete one-row store: the id persists across
turns, so its failures counter rises by one. -/
theorem update_realtime_feedback_spec_witness :
    XpuHandler.update_realtime_feedback
      (HandlerState.mk (some [StoreRow.mk "x1" (EntryContext.mk none [] [] [])
        (EntrySignals.mk [] []) [] [] [] (TelemetryCounters.mk 5 2 1)]) none [])
      ["x1"] ["x1"] =
    HandlerState.mk (some [StoreRow.mk "x1" (EntryContext.mk none [] [] [])
      (EntrySignals.mk [] []) [] [] [] (TelemetryCounters.mk 5 2 2)]) none [] := by
  have h := (update_realtime_feedback_spec
    (HandlerState.mk (some [StoreRow.mk "x1" (EntryContext.mk none [] [] [])
      (EntrySignals.mk [] []) [] [] [] (TelemetryCounters.mk 5 2 1)]) none [])
    [StoreRow.mk "x1" (EntryContext.mk none [] [] [])
      (EntrySignals.mk [] []) [] [] [] (TelemetryCounters.mk 5 2 1)]
    ["x1"] ["x1"] rfl).2 (by decide)
  rw [h]
  decide

/-- On a non-empty observation the source's gated match decision agrees
with the claim's three-way disjunction (the non-emptiness guards on the
keyword and file lists are redundant). -/
theorem expEntryMatches_eq_claim (ro : ReOracle) (obs : String) (files : List String)
    (e : ExpEntry) (hobs : obs ≠ "") :
    expEntryMatches ro obs files e = claimExpMatches ro obs files e := by
  unfold expEntryMatches claimExpMatches
  rw [if_pos hobs]
  cases hkw : e.signals.keywords <;> cases files <;> simp [Bool.or_assoc]

/-- Loop invariant of `ExperienceRetriever.retrieve`: provided no pending
entry id is already in `hit_ids` and the ids are duplicate-free, the loop
emits, in load order, the wrapped advice lines of exactly the matching
entries, each exactly once. -/
theorem retrieveFrom_eq (ro : ReOracle) (obs : String) (files : List String)
    (kb : List ExpEntry) :
    ∀ hitIds : List String, (∀ e ∈ kb, e.id ∉ hitIds) → (kb.map ExpEntry.id).Nodup →
    retrieveFrom ro obs files kb hitIds =
      (kb.filter (expEntryMatches ro obs files)).flatMap
        (fun e => e.advice_nl.map (fun a => expHintMarker ++ a)) := by
  induction kb with
  | nil => intro hitIds _ _; simp [retrieveFrom]
  | cons e rest ih =>
    intro hitIds hdisj hnd
    have hid : e.id ∉ hitIds := hdisj e (List.mem_cons_self e rest)
    have hnd' : (∀ x ∈ rest, ¬x.id = e.id) ∧ (rest.map ExpEntry.id).Nodup := by
      simpa using hnd
    unfold retrieveFrom
    by_cases hm : expEntryMatches ro obs files e
    · rw [if_pos (by simp [hm, List.elem_eq_mem, hid])]
      rw [ih (e.id :: hitIds) ?_ hnd'.2]
      · simp [List.filter_cons, hm]
      · intro e' he'
        simp only [List.mem_cons]
        push_neg
        exact ⟨fun heq => hnd'.1 e' he' heq, hdisj e' (List.mem_cons_of_mem e he')⟩
    · rw [if_neg (by simp [hm])]
      rw [ih hitIds (fun e' he' => hdisj e' (List.mem_cons_of_mem e he')) hnd'.2]
      simp [List.filter_cons, hm]

/-- Counterexample to C3 as stated: at the empty observation the source
skips both reactive checks (`if observation:`), so an entry whose declared
regex matches the empty text — here witnessed by an oracle that reports a
match, as `re.search` does for a pattern like `.*` — satisfies the claim's
match disjunction yet is not selected at all: `retrieve("", [])` is empty
rather than containing the entry exactly once. -/
theorem experience_retrieve_claim_counterexample :
    claimExpMatches (fun _ _ => some true) "" []
      (ExpEntry.mk "xpu_1" (EntrySignals.mk [".*"] []) ["advice"]) = true ∧
    ExperienceRetriever.retrieve (fun _ _ => some true)
      [ExpEntry.mk "xpu_1" (EntrySignals.mk [".*"] []) ["advice"]] "" [] = [] := by
  constructor <;> decide

/-- C3 amended: on a NON-EMPTY observation and a duplicate-free entry id set,
heuristic retrieval returns exactly the wrapped advice lines of the entries
satisfying the claim's match disjunction (regex hit, keyword substring, or
file-name/keyword intersection), one block per matching entry in load
order; in particular a regex-matched entry appears exactly once. -/
theorem experience_retrieve_spec (ro : ReOracle) (kb : List ExpEntry) (obs : String)
    (files : List String) (hobs : obs ≠ "") (hnd : (kb.map ExpEntry.id).Nodup) :
    ExperienceRetriever.retrieve ro kb obs files =
      (kb.filter (claimExpMatches ro obs files)).flatMap
        (fun e => e.advice_nl.map (fun a => expHintMarker ++ a)) := by
  unfold ExperienceRetriever.retrieve
  rw [retrieveFrom_eq ro obs files kb [] (by simp) hnd]
  congr 1
  apply List.filter_congr
  intro e _
  exact expEntryMatches_eq_claim ro obs files e hobs

/-- Witness for C3: the spec's own scenario — a keyword-matched entry
yields exactly its one wrapped advice line. -/
theorem experience_retrieve_spec_witness :
    ExperienceRetriever.retrieve (fun _ _ => some false)
      [ExpEntry.mk "xpu_1" (EntrySignals.mk [] ["ModuleNotFoundError"]) ["pin numpy"]]
      "ModuleNotFoundError: No module named numpy" [] =
      ["[Knowledge Base Hint]: pin numpy"] := by
  rw [experience_retrieve_spec (fun _ _ => some false)
    [ExpEntry.mk "xpu_1" (EntrySignals.mk [] ["ModuleNotFoundError"]) ["pin numpy"]]
    "ModuleNotFoundError: No module named numpy" [] (by decide) (by decide)]
  decide

/-- Counterexample to C2 as stated: with declared version list
`["3.10.2"]` and context version `"3.10"`, the claim's version clause
(declared version is a prefix of the context version) scores 0, while the
source's `_context_match_score` tests the opposite direction
(`py.startswith(ctx.python)`) and scores the entry 1.5 higher. -/
theorem score_xpu_claim_counterexample :
    claimScore (fun _ _ => some false)
      (XpuEntry.mk "e1" (EntryContext.mk none [] ["3.10.2"] []) (EntrySignals.mk [] [])
        [] [] (TelemetryCounters.mk 0 0 0))
      "" (XpuContext.mk none none (some "3.10") []) ≠
    score_xpu (fun _ _ => some false)
      (XpuEntry.mk "e1" (EntryContext.mk none [] ["3.10.2"] []) (EntrySignals.mk [] [])
        [] [] (TelemetryCounters.mk 0 0 0))
      "" (XpuContext.mk none none (some "3.10") []) := by
  have hsw1 : pyStartsWith "3.10" "3.10.2" = false := by decide
  have hsw2 : pyStartsWith "3.10.2" "3.10" = true := by decide
  have h310 : "3.10" ≠ "" := by decide
  norm_num [claimScore, score_xpu, claimContextScore, contextMatchScore,
    keywordScoreCount, matchRegexAny, hsw1, hsw2, h310]

/-- C2 amended: the composite score equals the claim's formula with the
version clause running in the source's direction — the context version is
a prefix of some declared entry version — stated for well-formed inputs
(no empty declared keyword, no empty-string context fields, whose Python
truthiness the source treats as absent). -/
theorem score_xpu_amended (ro : ReOracle) (e : XpuEntry) (s : String) (c : XpuContext)
    (hkw : "" ∉ e.signals.keywords) (hl : c.lang ≠ some "") (hp : c.python ≠ some "")
    (ho : c.os ≠ some "") :
    score_xpu ro e s c = amendedScore ro e s c := by
  have h1 : ((!e.signals.regex.isEmpty) && matchRegexAny ro e.signals.regex s) =
      matchRegexAny ro e.signals.regex s := by
    cases hr : e.signals.regex <;> simp [matchRegexAny, hr]
  have h2 : keywordScoreCount s e.signals.keywords =
      e.signals.keywords.countP (fun kw => pyIn (pyLower kw) (pyLower s)) := by
    unfold keywordScoreCount
    apply List.countP_congr
    intro kw hkwm
    have hne : ¬kw = "" := fun hh => hkw (hh ▸ hkwm)
    simp [hne]
  have htools2 : ∀ {γ : Type} (a b : γ) (l1 l2 : List String),
      (if (¬l1 = [] ∧ ¬l2 = []) ∧ (∃ x ∈ l1, x ∈ l2) then a else b) =
        if ∃ x ∈ l1, x ∈ l2 then a else b := by
    intro γ a b l1 l2
    by_cases hex : ∃ x ∈ l1, x ∈ l2
    · obtain ⟨x, hx1, hx2⟩ := hex
      rw [if_pos ⟨⟨List.ne_nil_of_mem hx1, List.ne_nil_of_mem hx2⟩, ⟨x, hx1, hx2⟩⟩,
        if_pos ⟨x, hx1, hx2⟩]
    · simp [hex]
  have h3 : (contextMatchScore e c : ℚ) = amendedContextScore e c := by
    obtain ⟨cl, co, cp, ct⟩ := c
    unfold contextMatchScore amendedContextScore
    cases cl with
    | none =>
      cases cp with
      | none =>
        cases co with
        | none =>
          simp
          exact htools2 _ _ _ _
        | some o =>
          have hone : o ≠ "" := fun hh => ho (by rw [hh])
          simp [hone]
          exact htools2 _ _ _ _
      | some p =>
        have hpne : p ≠ "" := fun hh => hp (by rw [hh])
        cases co with
        | none =>
          simp [hpne]
          exact htools2 _ _ _ _
        | some o =>
          have hone : o ≠ "" := fun hh => ho (by rw [hh])
          simp [hpne, hone]
          exact htools2 _ _ _ _
    | some l =>
      have hlne : l ≠ "" := fun hh => hl (by rw [hh])
      cases cp with
      | none =>
        cases co with
        | none =>
          simp [hlne]
          exact htools2 _ _ _ _
        | some o =>
          have hone : o ≠ "" := fun hh => ho (by rw [hh])
          simp [hlne, hone]
          exact htools2 _ _ _ _
      | some p =>
        have hpne : p ≠ "" := fun hh => hp (by rw [hh])
        cases co with
        | none =>
          simp [hlne, hpne]
          exact htools2 _ _ _ _
        | some o =>
          have hone : o ≠ "" := fun hh => ho (by rw [hh])
          simp [hlne, hpne, hone]
          exact htools2 _ _ _ _
  unfold score_xpu amendedScore
  rw [h1, h2, h3]
  split_ifs <;> ring

/-- Witness for the amended C2 at a concrete well-formed input. -/
theorem score_xpu_amended_witness :
    score_xpu (fun _ _ => some false)
      (XpuEntry.mk "e1" (EntryContext.mk (some "python") [] ["3.10.2"] [])
        (EntrySignals.mk [] ["failed"]) [] [] (TelemetryCounters.mk 0 0 0))
      "build failed" (XpuContext.mk (some "python") none (some "3.10") []) =
    amendedScore (fun _ _ => some false)
      (XpuEntry.mk "e1" (EntryContext.mk (some "python") [] ["3.10.2"] [])
        (EntrySignals.mk [] ["failed"]) [] [] (TelemetryCounters.mk 0 0 0))
      "build failed" (XpuContext.mk (some "python") none (some "3.10") []) :=
  score_xpu_amended (fun _ _ => some false)
    (XpuEntry.mk "e1" (EntryContext.mk (some "python") [] ["3.10.2"] [])
      (EntrySignals.mk [] ["failed"]) [] [] (TelemetryCounters.mk 0 0 0))
    "build failed" (XpuContext.mk (some "python") none (some "3.10") [])
    (by decide) (by decide) (by decide) (by decide)

/-- Stable insertion permutes to consing. -/
theorem stableInsert_perm {α : Type} (le : α → α → Bool) (x : α) (l : List α) :
    (stableInsert le x l).Perm (x :: l) := by
  induction l with
  | nil => simp [stableInsert]
  | cons y ys ih =>
    unfold stableInsert
    by_cases hxy : le x y
    · rw [if_pos hxy]
    · rw [if_neg hxy]
      exact (ih.cons y).trans (List.Perm.swap x y ys)

/-- Stable insertion sort permutes to the input. -/
theorem stableSort_perm {α : Type} (le : α → α → Bool) (l : List α) :
    (stableSort le l).Perm l := by
  induction l with
  | nil => simp [stableSort]
  | cons x xs ih =>
    unfold stableSort
    exact (stableInsert_perm le x (stableSort le xs)).trans (ih.cons x)

/-- Inserting into a `le`-pairwise list keeps it pairwise, when `le` is
total and transitive. -/
theorem stableInsert_pairwise {α : Type} (le : α → α → Bool)
    (htot : ∀ a b, le a b = true ∨ le b a = true)
    (htrans : ∀ a b c, le a b = true → le b c = true → le a c = true)
    (x : α) (l : List α) (hl : l.Pairwise (fun a b => le a b = true)) :
    (stableInsert le x l).Pairwise (fun a b => le a b = true) := by
  induction l with
  | nil => simp [stableInsert]
  | cons y ys ih =>
    unfold stableInsert
    rcases List.pairwise_cons.mp hl with ⟨hy, hys⟩
    by_cases hxy : le x y
    · rw [if_pos hxy]
      refine List.pairwise_cons.mpr ⟨?_, hl⟩
      intro z hz
      rcases List.mem_cons.mp hz with rfl | hz
      · exact hxy
      · exact htrans x y z hxy (hy z hz)
    · rw [if_neg hxy]
      refine List.pairwise_cons.mpr ⟨?_, ih hys⟩
      intro z hz
      have hz' := (stableInsert_perm le x ys).mem_iff.mp hz
      rcases List.mem_cons.mp hz' with rfl | hz'
      · exact (htot y z).resolve_right (by simpa using hxy)
      · exact hy z hz'

/-- Insertion sort output is pairwise `le`-ordered for a total transitive
`le`. -/
theorem stableSort_pairwise {α : Type} (le : α → α → Bool)
    (htot : ∀ a b, le a b = true ∨ le b a = true)
    (htrans : ∀ a b c, le a b = true → le b c = true → le a c = true)
    (l : List α) : (stableSort le l).Pairwise (fun a b => le a b = true) := by
  induction l with
  | nil => simp [stableSort]
  | cons x xs ih =>
    unfold stableSort
    exact stableInsert_pairwise le htot htrans x (stableSort le xs) ih

/-- Inserting an element of a "tie class" `p` puts it in front of the
class, provided nothing strictly ahead of it (in the `le` order) is in the
class. -/
theorem stableInsert_filter_pos {α : Type} (le : α → α → Bool) (p : α → Bool)
    (x : α) (l : List α) (hx : p x = true)
    (hcls : ∀ y, le x y = false → p y = false) :
    (stableInsert le x l).filter p = x :: l.filter p := by
  induction l with
  | nil => simp [stableInsert, hx]
  | cons y ys ih =>
    unfold stableInsert
    by_cases hxy : le x y
    · rw [if_pos hxy]
      simp [List.filter_cons, hx]
    · rw [if_neg hxy]
      have hy : p y = false := hcls y (by simpa using hxy)
      simp [List.filter_cons, hy, ih]

/-- Inserting an element outside the class `p` leaves the class
subsequence unchanged. -/
theorem stableInsert_filter_neg {α : Type} (le : α → α → Bool) (p : α → Bool)
    (x : α) (l : List α) (hx : p x = false) :
    (stableInsert le x l).filter p = l.filter p := by
  induction l with
  | nil => simp [stableInsert, hx]
  | cons y ys ih =>
    unfold stableInsert
    by_cases hxy : le x y
    · rw [if_pos hxy]
      simp [List.filter_cons, hx]
    · rw [if_neg hxy]
      simp [List.filter_cons, ih]

/-- Stability of the insertion sort: any tie class `p` (a set of mutually
tied elements, closed in the sense that nothing ordered strictly ahead of a
class member is in the class) appears in the output in its original
order. -/
theorem stableSort_filter {α : Type} (le : α → α → Bool) (p : α → Bool)
    (hcls : ∀ x y, p x = true → le x y = false → p y = false)
    (l : List α) : (stableSort le l).filter p = l.filter p := by
  induction l with
  | nil => simp [stableSort]
  | cons x xs ih =>
    unfold stableSort
    by_cases hx : p x
    · rw [stableInsert_filter_pos le p x (stableSort le xs) hx (hcls x · hx)]
      simp [List.filter_cons, hx, ih]
    · rw [stableInsert_filter_neg le p x (stableSort le xs) (by simpa using hx)]
      simp [List.filter_cons, hx, ih]

/-- `takeWhile` over a concatenation whose left part satisfies the
predicate and whose right part refutes it returns the left part. -/
theorem takeWhile_append_all {α : Type} (p : α → Bool) (xs ys : List α)
    (hxs : ∀ x ∈ xs, p x = true) (hys : ∀ y ∈ ys, p y = false) :
    (xs ++ ys).takeWhile p = xs := by
  induction xs with
  | nil =>
    cases ys with
    | nil => simp
    | cons y ys => simp [List.takeWhile_cons, hys y (List.mem_cons_self y ys)]
  | cons x xs ih =>
    have hx := hxs x (List.mem_cons_self x xs)
    have ih' := ih fun z hz => hxs z (List.mem_cons_of_mem x hz)
    simp [List.takeWhile_cons, hx, ih']

/-- Counterpart of `takeWhile_append_all` for `dropWhile`. -/
theorem dropWhile_append_all {α : Type} (p : α → Bool) (xs ys : List α)
    (hxs : ∀ x ∈ xs, p x = true) (hys : ∀ y ∈ ys, p y = false) :
    (xs ++ ys).dropWhile p = ys := by
  induction xs with
  | nil =>
    cases ys with
    | nil => simp
    | cons y ys => simp [List.dropWhile_cons, hys y (List.mem_cons_self y ys)]
  | cons x xs ih =>
    have hx := hxs x (List.mem_cons_self x xs)
    have ih' := ih fun z hz => hxs z (List.mem_cons_of_mem x hz)
    simp [List.dropWhile_cons, hx, ih']

/-- Filtering commutes with mapping, composing the predicate. -/
theorem filter_map_comm {α β : Type} (f : α → β) (p : β → Bool) (l : List α) :
    (l.map f).filter p = (l.filter (fun x => p (f x))).map f := by
  induction l with
  | nil => simp
  | cons x xs ih => by_cases h : p (f x) <;> simp [List.filter_cons, h, ih]

/-- A predicate and its negation partition the length. -/
theorem filter_partition_length {α : Type} (p : α → Bool) (l : List α) :
    (l.filter p).length + (l.filter (fun x => !p x)).length = l.length := by
  induction l with
  | nil => simp
  | cons x xs ih => by_cases h : p x <;> simp [List.filter_cons, h] <;> omega

/-- Filtering an initial segment yields an initial segment of the
filtering. -/
theorem filter_take_front {α : Type} (p : α → Bool) (l : List α) (n : Nat) :
    ((l.take n).filter p) <+: (l.filter p) := by
  conv_rhs => rw [← List.take_append_drop n l]
  rw [List.filter_append]
  exact ⟨(l.drop n).filter p, rfl⟩

/-- Behaviour of one sorted-and-truncated half of the prefer-atoms
selection: all members satisfy the class predicate `pb`, the length is
`min m` (number of `pb` entries), scores descend, every score tie class is
an initial segment of the `pb` entries in discovery order, and when at most
`m` entries satisfy `pb` the half contains all of them. -/
theorem sorted_take_part_spec (ro : ReOracle) (s : String) (ctx : XpuContext)
    (l : List XpuEntry) (pb : XpuEntry → Bool) (m : Nat) (part : List XpuEntry)
    (hpart : part = ((sortByScoreDesc
      ((l.map (fun e => (score_xpu ro e s ctx, e))).filter (fun x => pb x.2))).take m).map
      Prod.snd) :
    (∀ e ∈ part, pb e = true) ∧
    part.length = min m (l.filter pb).length ∧
    part.Pairwise (fun a b => score_xpu ro b s ctx ≤ score_xpu ro a s ctx) ∧
    (∀ q : ℚ, part.filter (fun e => decide (score_xpu ro e s ctx = q)) <+:
      l.filter (fun e => pb e && decide (score_xpu ro e s ctx = q))) ∧
    ((l.filter pb).length ≤ m → ∀ e ∈ l, pb e = true → e ∈ part) := by
  subst hpart
  simp only [sortByScoreDesc]
  have hpairs : ((l.map (fun e => (score_xpu ro e s ctx, e))).filter (fun x => pb x.2)) =
      (l.filter pb).map (fun e => (score_xpu ro e s ctx, e)) := by
    rw [filter_map_comm]
  have hfst : ∀ x ∈ (l.map (fun e => (score_xpu ro e s ctx, e))).filter (fun x => pb x.2),
      x.1 = score_xpu ro x.2 s ctx := by
    intro x hx
    obtain ⟨e, _, rfl⟩ := List.mem_map.mp (List.mem_filter.mp hx).1
    rfl
  have hperm := stableSort_perm (fun a b : ℚ × XpuEntry => decide (b.1 ≤ a.1))
    ((l.map (fun e => (score_xpu ro e s ctx, e))).filter (fun x => pb x.2))
  have hpw := stableSort_pairwise (fun a b : ℚ × XpuEntry => decide (b.1 ≤ a.1))
    (fun a b => by
      rcases le_total b.1 a.1 with h | h
      · exact Or.inl (decide_eq_true h)
      · exact Or.inr (decide_eq_true h))
    (fun a b c hab hbc =>
      decide_eq_true (le_trans (of_decide_eq_true hbc) (of_decide_eq_true hab)))
    ((l.map (fun e => (score_xpu ro e s ctx, e))).filter (fun x => pb x.2))
  have hmem_take : ∀ x, x ∈ (stableSort (fun a b : ℚ × XpuEntry => decide (b.1 ≤ a.1))
      ((l.map (fun e => (score_xpu ro e s ctx, e))).filter (fun x => pb x.2))).take m →
      x ∈ (l.map (fun e => (score_xpu ro e s ctx, e))).filter (fun x => pb x.2) :=
    fun x hx => hperm.mem_iff.mp (List.mem_of_mem_take hx)
  refine ⟨?_, ?_, ?_, ?_, ?_⟩
  · intro e he
    obtain ⟨x, hx, rfl⟩ := List.mem_map.mp he
    exact of_decide_eq_true (by
      have := (List.mem_filter.mp (hmem_take x hx)).2
      simpa using this)
  · rw [List.length_map, List.length_take, hperm.length_eq, hpairs, List.length_map]
  · rw [List.pairwise_map]
    refine List.Pairwise.imp_of_mem ?_ (hpw.sublist (List.take_sublist m _))
    intro a b ha hb hr
    have ha' := hfst a (hmem_take a ha)
    have hb' := hfst b (hmem_take b hb)
    rw [← ha', ← hb']
    exact of_decide_eq_true hr
  · intro q
    have hcong1 : (((stableSort (fun a b : ℚ × XpuEntry => decide (b.1 ≤ a.1))
        ((l.map (fun e => (score_xpu ro e s ctx, e))).filter (fun x => pb x.2))).take m).map
          Prod.snd).filter (fun e => decide (score_xpu ro e s ctx = q)) =
        (((stableSort (fun a b : ℚ × XpuEntry => decide (b.1 ≤ a.1))
        ((l.map (fun e => (score_xpu ro e s ctx, e))).filter (fun x => pb x.2))).take m).filter
          (fun x => decide (x.1 = q ∧ score_xpu ro x.2 s ctx = q))).map Prod.snd := by
      rw [filter_map_comm]
      congr 1
      apply List.filter_congr
      intro x hx
      have hx1 := hfst x (hmem_take x hx)
      by_cases hsq : score_xpu ro x.2 s ctx = q
      · simp [hsq, hx1]
      · simp [hsq]
    rw [hcong1]
    have hcls : ∀ x y : ℚ × XpuEntry,
        (fun x => decide (x.1 = q ∧ score_xpu ro x.2 s ctx = q)) x = true →
        (fun a b : ℚ × XpuEntry => decide (b.1 ≤ a.1)) x y = false →
        (fun x => decide (x.1 = q ∧ score_xpu ro x.2 s ctx = q)) y = false := by
      intro x y hx hxy
      have hx' := of_decide_eq_true hx
      have hyx : ¬y.1 ≤ x.1 := by simpa using hxy
      have : y.1 ≠ q := fun hq => hyx (by rw [hq, ← hx'.1])
      simp [this]
    have hstep2 := stableSort_filter (fun a b : ℚ × XpuEntry => decide (b.1 ≤ a.1))
      (fun x => decide (x.1 = q ∧ score_xpu ro x.2 s ctx = q)) hcls
      ((l.map (fun e => (score_xpu ro e s ctx, e))).filter (fun x => pb x.2))
    have hstep3 : (((l.map (fun e => (score_xpu ro e s ctx, e))).filter
          (fun x => pb x.2)).filter
          (fun x => decide (x.1 = q ∧ score_xpu ro x.2 s ctx = q))).map Prod.snd =
        l.filter (fun e => pb e && decide (score_xpu ro e s ctx = q)) := by
      rw [hpairs]
      rw [filter_map_comm]
      rw [List.map_map]
      have : ∀ e ∈ l.filter pb,
          (decide ((score_xpu ro e s ctx, e).1 = q ∧
            score_xpu ro (score_xpu ro e s ctx, e).2 s ctx = q)) =
          decide (score_xpu ro e s ctx = q) := by
        intro e _
        by_cases hsq : score_xpu ro e s ctx = q <;> simp [hsq]
      rw [List.filter_congr this]
      rw [List.filter_filter]
      have hmapid : ∀ (L : List XpuEntry),
          L.map (Prod.snd ∘ fun e => (score_xpu ro e s ctx, e)) = L := by
        intro L
        induction L with
        | nil => rfl
        | cons a as iha => simp [iha]
      rw [hmapid]
      apply List.filter_congr
      intro e _
      by_cases h1 : pb e <;> by_cases h2 : score_xpu ro e s ctx = q <;> simp [h1, h2]
    calc (((stableSort (fun a b : ℚ × XpuEntry => decide (b.1 ≤ a.1))
        ((l.map (fun e => (score_xpu ro e s ctx, e))).filter (fun x => pb x.2))).take m).filter
          (fun x => decide (x.1 = q ∧ score_xpu ro x.2 s ctx = q))).map Prod.snd
        <+: ((stableSort (fun a b : ℚ × XpuEntry => decide (b.1 ≤ a.1))
        ((l.map (fun e => (score_xpu ro e s ctx, e))).filter (fun x => pb x.2))).filter
          (fun x => decide (x.1 = q ∧ score_xpu ro x.2 s ctx = q))).map Prod.snd :=
          List.IsPrefix.map _ (filter_take_front _ _ m)
      _ = l.filter (fun e => pb e && decide (score_xpu ro e s ctx = q)) := by
          rw [hstep2, hstep3]
  · intro hlen e he hpbe
    have hplen : ((l.map (fun e => (score_xpu ro e s ctx, e))).filter
        (fun x => pb x.2)).length = (l.filter pb).length := by
      rw [hpairs, List.length_map]
    have htk : (stableSort (fun a b : ℚ × XpuEntry => decide (b.1 ≤ a.1))
        ((l.map (fun e => (score_xpu ro e s ctx, e))).filter (fun x => pb x.2))).take m =
        stableSort (fun a b : ℚ × XpuEntry => decide (b.1 ≤ a.1))
        ((l.map (fun e => (score_xpu ro e s ctx, e))).filter (fun x => pb x.2)) := by
      apply List.take_of_length_le
      rw [hperm.length_eq, hplen]
      exact hlen
    rw [htk]
    have hpm : (score_xpu ro e s ctx, e) ∈
        (l.map (fun e => (score_xpu ro e s ctx, e))).filter (fun x => pb x.2) := by
      rw [hpairs]
      exact List.mem_map_of_mem _ (List.mem_filter.mpr ⟨he, hpbe⟩)
    exact List.mem_map_of_mem Prod.snd (hperm.mem_iff.mpr hpm)

/-- In prefer-atoms mode the selection is literally the truncated sorted
atom-bearing half followed by the truncated sorted atom-free half. -/
theorem retrieve_xpu_eq_parts (ro : ReOracle) (entries : List XpuEntry) (s : String)
    (ctx : XpuContext) (k : Nat) :
    retrieve_xpu_candidates ro entries s ctx k true =
      ((sortByScoreDesc ((entries.map (fun e => (score_xpu ro e s ctx, e))).filter
        (fun x => !x.2.atoms.isEmpty))).take k).map Prod.snd ++
      ((sortByScoreDesc ((entries.map (fun e => (score_xpu ro e s ctx, e))).filter
        (fun x => x.2.atoms.isEmpty))).take
        (k - (((sortByScoreDesc ((entries.map (fun e => (score_xpu ro e s ctx, e))).filter
          (fun x => !x.2.atoms.isEmpty))).take k).map Prod.snd).length)).map Prod.snd := by
  by_cases hne : entries.isEmpty
  · have hnil : entries = [] := by simpa using hne
    subst hnil
    simp [retrieve_xpu_candidates, sortByScoreDesc, stableSort]
  · have hm : (entries.map fun e => (score_xpu ro e s ctx, e)).isEmpty = false := by
      cases entries with
      | nil => simp at hne
      | cons a as => simp
    simp only [retrieve_xpu_candidates, hne, hm, Bool.false_eq_true, if_false, if_true]
    by_cases hlt : (((sortByScoreDesc ((entries.map (fun e => (score_xpu ro e s ctx, e))).filter
        (fun x => !x.2.atoms.isEmpty))).take k).map Prod.snd).length < k
    · rw [if_pos hlt]
    · rw [if_neg hlt]
      have hle : (((sortByScoreDesc ((entries.map (fun e => (score_xpu ro e s ctx, e))).filter
          (fun x => !x.2.atoms.isEmpty))).take k).map Prod.snd).length ≤ k := by
        simp only [List.length_map, List.length_take]
        omega
      have heq : (((sortByScoreDesc ((entries.map (fun e => (score_xpu ro e s ctx, e))).filter
          (fun x => !x.2.atoms.isEmpty))).take k).map Prod.snd).length = k := by omega
      rw [heq, Nat.sub_self]
      simp

/-- C5: in the default prefer-remediable mode the selection holds at most
`k` entries (exactly `min k` the entry count); it is an atom-bearing block
`A` followed by an atom-free block `B`; each block is sorted by descending
composite score; `B` is non-empty only when fewer than `k` atom-bearing
entries exist, in which case `A` holds all of them; and within each block
every score tie class keeps the stable discovery (load) order — it is an
initial segment of that class in load order. -/
theorem retrieve_xpu_candidates_spec (ro : ReOracle) (entries : List XpuEntry)
    (s : String) (ctx : XpuContext) (k : Nat) (res A B : List XpuEntry)
    (hres : res = retrieve_xpu_candidates ro entries s ctx k true)
    (hA : A = res.takeWhile (fun e => !e.atoms.isEmpty))
    (hB : B = res.dropWhile (fun e => !e.atoms.isEmpty)) :
    res.length = min k entries.length ∧
    res = A ++ B ∧
    (∀ e ∈ A, e.atoms ≠ []) ∧
    (∀ e ∈ B, e.atoms = []) ∧
    A.Pairwise (fun a b => score_xpu ro b s ctx ≤ score_xpu ro a s ctx) ∧
    B.Pairwise (fun a b => score_xpu ro b s ctx ≤ score_xpu ro a s ctx) ∧
    (B ≠ [] → (entries.filter (fun e => !e.atoms.isEmpty)).length < k ∧
      ∀ e ∈ entries, e.atoms ≠ [] → e ∈ A) ∧
    (∀ q : ℚ, A.filter (fun e => decide (score_xpu ro e s ctx = q)) <+:
      entries.filter (fun e => (!e.atoms.isEmpty) && decide (score_xpu ro e s ctx = q))) ∧
    (∀ q : ℚ, B.filter (fun e => decide (score_xpu ro e s ctx = q)) <+:
      entries.filter (fun e => e.atoms.isEmpty && decide (score_xpu ro e s ctx = q))) := by
  obtain ⟨pA, hpA⟩ : ∃ pA, pA = ((sortByScoreDesc
      ((entries.map (fun e => (score_xpu ro e s ctx, e))).filter
        (fun x => !x.2.atoms.isEmpty))).take k).map Prod.snd := ⟨_, rfl⟩
  obtain ⟨pB, hpB⟩ : ∃ pB, pB = ((sortByScoreDesc
      ((entries.map (fun e => (score_xpu ro e s ctx, e))).filter
        (fun x => x.2.atoms.isEmpty))).take (k - pA.length)).map Prod.snd := ⟨_, rfl⟩
  have hres' : res = pA ++ pB := by
    rw [hres, retrieve_xpu_eq_parts ro entries s ctx k, ← hpA, ← hpB]
  have hPA := sorted_take_part_spec ro s ctx entries (fun e => !e.atoms.isEmpty) k pA hpA
  have hPB := sorted_take_part_spec ro s ctx entries (fun e => e.atoms.isEmpty)
    (k - pA.length) pB hpB
  have hallA : ∀ x ∈ pA, (fun e : XpuEntry => !e.atoms.isEmpty) x = true := hPA.1
  have hnoneB : ∀ y ∈ pB, (fun e : XpuEntry => !e.atoms.isEmpty) y = false := by
    intro y hy
    simp [hPB.1 y hy]
  have hA' : A = pA := by
    rw [hA, hres', takeWhile_append_all _ pA pB hallA hnoneB]
  have hB' : B = pB := by
    rw [hB, hres', dropWhile_append_all _ pA pB hallA hnoneB]
  have hpart : (entries.filter (fun e => !e.atoms.isEmpty)).length +
      (entries.filter (fun e => e.atoms.isEmpty)).length = entries.length := by
    have h0 := filter_partition_length (fun e : XpuEntry => !e.atoms.isEmpty) entries
    have h1 : entries.filter (fun x => !(!x.atoms.isEmpty)) =
        entries.filter (fun e => e.atoms.isEmpty) :=
      List.filter_congr fun x _ => by simp
    rw [h1] at h0
    exact h0
  refine ⟨?_, ?_, ?_, ?_, ?_, ?_, ?_, ?_, ?_⟩
  · rw [hres', List.length_append, hPA.2.1, hPB.2.1]
    omega
  · rw [hA, hB]
    exact (List.takeWhile_append_dropWhile (fun e => !e.atoms.isEmpty) res).symm
  · intro e he
    have := hPA.1 e (hA' ▸ he)
    simpa using this
  · intro e he
    have := hPB.1 e (hB' ▸ he)
    simpa using this
  · exact hA' ▸ hPA.2.2.1
  · exact hB' ▸ hPB.2.2.1
  · intro hBne
    have hpBne : pB ≠ [] := hB' ▸ hBne
    have hpBlen : 0 < pB.length := List.length_pos.mpr hpBne
    have hlt : (entries.filter (fun e => !e.atoms.isEmpty)).length < k := by
      rw [hPB.2.1, hPA.2.1] at hpBlen
      omega
    refine ⟨hlt, ?_⟩
    intro e he hatoms
    have hin := hPA.2.2.2.2 (le_of_lt hlt) e he (by simpa using hatoms)
    rw [hA']
    exact hin
  · intro q
    rw [hA']
    exact hPA.2.2.2.1 q
  · intro q
    rw [hB']
    exact hPB.2.2.2.1 q

/-- Witness for C5 at a concrete two-entry list: the atom-bearing entry is
selected first even with a lower score, and the bound holds. -/
theorem retrieve_xpu_candidates_spec_witness :
    (retrieve_xpu_candidates (fun _ _ => some false)
      [XpuEntry.mk "a" (EntryContext.mk none [] [] []) (EntrySignals.mk [] ["boom"]) []
        [] (TelemetryCounters.mk 0 0 0),
       XpuEntry.mk "b" (EntryContext.mk none [] [] []) (EntrySignals.mk [] []) []
        [XpuAtom.mk "set_umask" [("value", PyVal.pstr "022")]] (TelemetryCounters.mk 0 0 0)]
      "boom" (XpuContext.mk none none none []) 1 true).length =
      min 1 2 := by
  have h := (retrieve_xpu_candidates_spec (fun _ _ => some false)
    [XpuEntry.mk "a" (EntryContext.mk none [] [] []) (EntrySignals.mk [] ["boom"]) []
      [] (TelemetryCounters.mk 0 0 0),
     XpuEntry.mk "b" (EntryContext.mk none [] [] []) (EntrySignals.mk [] []) []
      [XpuAtom.mk "set_umask" [("value", PyVal.pstr "022")]] (TelemetryCounters.mk 0 0 0)]
    "boom" (XpuContext.mk none none none []) 1 _ _ _ rfl rfl rfl).1
  simpa using h

/-- Evaluation of the version-filter slip behind claim C6: `search` accepts
the row with declared versions `["0.9"]` under context version `"3.10"` —
the SQL iterates the CHARACTERS of the context version string and `"0.9"`
matches `LIKE` for the character `0` — although neither string is a prefix
of the other, so a version-prefix filter would reject the row. -/
theorem search_python_filter_char_bug :
    XpuVectorStore.search 1 (fun _ _ => 0)
      [StoreRow.mk "e1" (EntryContext.mk none [] ["0.9"] []) (EntrySignals.mk [] [])
        [] [] [0] (TelemetryCounters.mk 0 0 0)]
      [0] (some (XpuContext.mk none none (some "3.10") [])) 3 0 =
      Except.ok [SearchResult.mk "e1" (EntryContext.mk none [] ["0.9"] [])
        (EntrySignals.mk [] []) [] [] 1] ∧
    (¬pyStartsWith "0.9" "3.10" = true ∧ ¬pyStartsWith "3.10" "0.9" = true) := by
  constructor
  · have hpy : pyFilterOk (some (XpuContext.mk none none (some "3.10") []))
        (StoreRow.mk "e1" (EntryContext.mk none [] ["0.9"] []) (EntrySignals.mk [] [])
          [] [] [0] (TelemetryCounters.mk 0 0 0)) = true := by
      decide
    norm_num [XpuVectorStore.search, rowSimilarity, langFilterOk, toolsFilterOk, hpy,
      List.filter_cons, stableSort, stableInsert]
  · constructor <;> decide

/-- Case analysis of one `retrieve_hints` call: either it degrades to the
empty result with the state untouched, or it surfaces a non-empty result
list and performs exactly the success-path updates. -/
theorem retrieve_hints_shape (env : XpuEnv) (s : HandlerState) (res : String) :
    ((XpuHandler.retrieve_hints env s res).ids = [] ∧
      (XpuHandler.retrieve_hints env s res).state = s ∧
      (XpuHandler.retrieve_hints env s res).block = "") ∨
    (∃ rows results, s.vector_store = some rows ∧ results ≠ [] ∧
      XpuHandler.should_query_xpu s (truncateSnippet (pyStrip res))
        (check_has_error (truncateSnippet (pyStrip res))) = true ∧
      XpuHandler.retrieve_hints env s res = RetrieveOutcome.mk
        (render_candidates_block (results.map (fun r : SearchResult =>
          XpuEntry.mk r.id r.context r.signals r.advice_nl r.atoms
            (TelemetryCounters.mk 0 0 0))))
        ((results.map (fun r : SearchResult =>
          XpuEntry.mk r.id r.context r.signals r.advice_nl r.atoms
            (TelemetryCounters.mk 0 0 0))).map XpuEntry.id)
        (HandlerState.mk
          (some (increment_telemetry rows ((results.map (fun r : SearchResult =>
            XpuEntry.mk r.id r.context r.signals r.advice_nl r.atoms
              (TelemetryCounters.mk 0 0 0))).map XpuEntry.id) TelField.hits))
          (some (truncateSnippet (pyStrip res)))
          (setUpdate s.session_used_ids ((results.map (fun r : SearchResult =>
            XpuEntry.mk r.id r.context r.signals r.advice_nl r.atoms
              (TelemetryCounters.mk 0 0 0))).map XpuEntry.id)))
        1) := by
  by_cases hq : (!XpuHandler.should_query_xpu s (truncateSnippet (pyStrip res))
      (check_has_error (truncateSnippet (pyStrip res)))) = true
  · left
    simp [XpuHandler.retrieve_hints, hq]
  · have hnq : (!XpuHandler.should_query_xpu s (truncateSnippet (pyStrip res))
        (check_has_error (truncateSnippet (pyStrip res)))) = false := by
      simpa using hq
    have hq' : XpuHandler.should_query_xpu s (truncateSnippet (pyStrip res))
        (check_has_error (truncateSnippet (pyStrip res))) = true := by
      simpa using hnq
    cases hvs : s.vector_store with
    | none => left; simp [XpuHandler.retrieve_hints, hnq, hvs]
    | some rows =>
      cases hemb : env.embed (truncateSnippet (pyStrip res)) with
      | error m => left; simp [XpuHandler.retrieve_hints, hnq, hvs, hemb]
      | ok qv =>
        cases hsr : XpuVectorStore.search env.dim env.dist rows qv
            (some (XpuContext.mk (some "python") none none [])) 3 (3 / 10) with
        | error m => left; simp [XpuHandler.retrieve_hints, hnq, hvs, hemb, hsr]
        | ok results =>
          by_cases hre : results.isEmpty
          · left; simp [XpuHandler.retrieve_hints, hnq, hvs, hemb, hsr, hre]
          · right
            refine ⟨rows, results, rfl, by simpa using hre, hq', ?_⟩
            simp [XpuHandler.retrieve_hints, hnq, hvs, hemb, hsr, hre]

/-- C10: a `retrieve_hints` call that returns no candidate ids leaves the
whole session state unchanged (memo, session-used set, store telemetry) and
yields the empty block; a call that returns candidates performs exactly the
success-path updates: `hits` incremented for the returned ids, the
last-query memo set to the processed snippet, and the ids merged into the
session-used set. -/
theorem retrieve_hints_frame (env : XpuEnv) (s : HandlerState) (res : String) :
    ((XpuHandler.retrieve_hints env s res).ids = [] →
      (XpuHandler.retrieve_hints env s res).state = s ∧
      (XpuHandler.retrieve_hints env s res).block = "") ∧
    ((XpuHandler.retrieve_hints env s res).ids ≠ [] →
      ∃ rows, s.vector_store = some rows ∧
        (XpuHandler.retrieve_hints env s res).state = HandlerState.mk
          (some (increment_telemetry rows (XpuHandler.retrieve_hints env s res).ids
            TelField.hits))
          (some (truncateSnippet (pyStrip res)))
          (setUpdate s.session_used_ids (XpuHandler.retrieve_hints env s res).ids)) := by
  rcases retrieve_hints_shape env s res with ⟨h1, h2, h3⟩ | ⟨rows, results, hvs, hrne, _, hout⟩
  · refine ⟨fun _ => ⟨h2, h3⟩, fun hne => absurd h1 hne⟩
  · constructor
    · intro h0
      rw [hout] at h0
      simp at h0
      exact absurd h0 hrne
    · intro _
      refine ⟨rows, hvs, ?_⟩
      rw [hout]

/-- Witness for C10: with no store configured the call returns no ids and
the state is untouched. -/
theorem retrieve_hints_frame_witness :
    (XpuHandler.retrieve_hints
      (XpuEnv.mk 1 (fun _ _ => 0) (fun _ => Except.error "no embedding"))
      (HandlerState.mk none none []) "error: boom").state =
      HandlerState.mk none none [] :=
  ((retrieve_hints_frame
    (XpuEnv.mk 1 (fun _ _ => 0) (fun _ => Except.error "no embedding"))
    (HandlerState.mk none none []) "error: boom").1 rfl).1

/-- C4: after a call that surfaced candidates, a second call with the same
observation text is suppressed entirely — the last-query memo equals the
recomputed snippet, so the should-query gate fails before any embedding or
store lookup (zero search calls), no hit increment happens, and the call
returns the empty block and empty id list with the state unchanged. -/
theorem retrieve_hints_repeat_suppressed (env : XpuEnv) (s : HandlerState) (res : String)
    (hids : (XpuHandler.retrieve_hints env s res).ids ≠ []) :
    XpuHandler.retrieve_hints env (XpuHandler.retrieve_hints env s res).state res =
      RetrieveOutcome.mk "" [] (XpuHandler.retrieve_hints env s res).state 0 := by
  rcases retrieve_hints_shape env s res with ⟨h1, _, _⟩ | ⟨rows, results, _, _, _, hout⟩
  · exact absurd h1 hids
  · rw [hout]
    have hsq2 : XpuHandler.should_query_xpu
        (HandlerState.mk
          (some (increment_telemetry rows ((results.map (fun r : SearchResult =>
            XpuEntry.mk r.id r.context r.signals r.advice_nl r.atoms
              (TelemetryCounters.mk 0 0 0))).map XpuEntry.id) TelField.hits))
          (some (truncateSnippet (pyStrip res)))
          (setUpdate s.session_used_ids ((results.map (fun r : SearchResult =>
            XpuEntry.mk r.id r.context r.signals r.advice_nl r.atoms
              (TelemetryCounters.mk 0 0 0))).map XpuEntry.id)))
        (truncateSnippet (pyStrip res)) (check_has_error (truncateSnippet (pyStrip res))) =
        false := by
      unfold XpuHandler.should_query_xpu
      split_ifs with h1 h2 h3 h4
      · rfl
      · rfl
      · rfl
      · rfl
      · exact absurd (by simp) h4
    simp only [XpuHandler.retrieve_hints, hsq2]
    simp

/-- Witness for C4: a concrete successful first call (one matching store
row, constant embedding and distance) followed by the suppressed identical
second call. -/
theorem retrieve_hints_repeat_suppressed_witness :
    XpuHandler.retrieve_hints
      (XpuEnv.mk 1 (fun _ _ => 0) (fun _ => Except.ok [0]))
      (XpuHandler.retrieve_hints (XpuEnv.mk 1 (fun _ _ => 0) (fun _ => Except.ok [0]))
        (HandlerState.mk (some [StoreRow.mk "x1" (EntryContext.mk (some "python") [] [] [])
          (EntrySignals.mk [] []) ["advice"] [] [0] (TelemetryCounters.mk 0 0 0)]) none [])
        "error: boom").state "error: boom" =
      RetrieveOutcome.mk "" []
        (XpuHandler.retrieve_hints (XpuEnv.mk 1 (fun _ _ => 0) (fun _ => Except.ok [0]))
          (HandlerState.mk (some [StoreRow.mk "x1" (EntryContext.mk (some "python") [] [] [])
            (EntrySignals.mk [] []) ["advice"] [] [0] (TelemetryCounters.mk 0 0 0)]) none [])
          "error: boom").state 0 := by
  apply retrieve_hints_repeat_suppressed
  have hstrip : pyStrip "error: boom" = "error: boom" := by decide
  have hsnip : truncateSnippet "error: boom" = "error: boom" := by decide
  have herr : check_has_error "error: boom" = true := by decide
  have hse : XpuVectorStore.search 1 (fun _ _ => 0)
      [StoreRow.mk "x1" (EntryContext.mk (some "python") [] [] [])
        (EntrySignals.mk [] []) ["advice"] [] [0] (TelemetryCounters.mk 0 0 0)]
      [0] (some (XpuContext.mk (some "python") none none [])) 3 (3 / 10) =
      Except.ok [SearchResult.mk "x1" (EntryContext.mk (some "python") [] [] [])
        (EntrySignals.mk [] []) ["advice"] [] 1] := by
    norm_num [XpuVectorStore.search, rowSimilarity, langFilterOk, pyFilterOk, toolsFilterOk,
      List.filter_cons, stableSort, stableInsert]
  simp [XpuHandler.retrieve_hints, hstrip, hsnip, herr, hse, XpuHandler.should_query_xpu]
